import Mathlib

/-!
Verification development for the `astrbot_plugin_spam_detector` plugin
(`main.py`).  The Python data structures and operations relevant to the
message-pool, batching, concurrency-guard, rate-limiting, result-parsing and
content-flattening logic are shallowly embedded as executable Lean
definitions, and the behavioural properties claimed for them are proved (or
refuted) below.

External boundaries (the LLM classifier call, the JSON parser of the Python
standard library, the vision-model image-content extractor) are modelled as
function parameters, as they are I/O adapters outside the plugin's own code.
-/

namespace SpamDetector

/-! ## Python `dict` model

Python dicts preserve insertion order; assignment to an existing key keeps
its position, assignment to a fresh key appends.  We model a dict as an
association list and translate each dict operation used by the plugin. -/

/-- `d[k]` lookup / `k in d` membership support: first binding of `k`. -/
def dictLookup {β : Type} (d : List (String × β)) (k : String) : Option β :=
  (d.find? (fun p => p.1 == k)).map (fun p => p.2)

/-- Python `k in d`. -/
def dictContains {β : Type} (d : List (String × β)) (k : String) : Bool :=
  (dictLookup d k).isSome

/-- Python `d[k] = v`: replace in place when the key exists, else append. -/
def dictSet {β : Type} (d : List (String × β)) (k : String) (v : β) :
    List (String × β) :=
  if dictContains d k then
    d.map (fun p => if p.1 == k then (k, v) else p)
  else
    d ++ [(k, v)]

/-- Python `d.pop(k)` / `del d[k]`: remove the binding of `k`. -/
def dictErase {β : Type} (d : List (String × β)) (k : String) :
    List (String × β) :=
  d.filter (fun p => !(p.1 == k))

theorem dictLookup_nil {β : Type} (k : String) :
    dictLookup ([] : List (String × β)) k = none := rfl

theorem dictLookup_cons {β : Type} (p : String × β) (rest : List (String × β))
    (k : String) :
    dictLookup (p :: rest) k =
      if p.1 = k then some p.2 else dictLookup rest k := by
  by_cases h : p.1 = k
  · simp [dictLookup, List.find?_cons_of_pos, h]
  · simp [dictLookup, List.find?_cons_of_neg, h]

theorem dictContains_cons {β : Type} (p : String × β)
    (rest : List (String × β)) (k : String) :
    dictContains (p :: rest) k =
      if p.1 = k then true else dictContains rest k := by
  by_cases h : p.1 = k <;> simp [dictContains, dictLookup_cons, h]

theorem dictErase_nil {β : Type} (k : String) :
    dictErase ([] : List (String × β)) k = [] := rfl

theorem dictErase_cons {β : Type} (p : String × β) (rest : List (String × β))
    (k : String) :
    dictErase (p :: rest) k =
      if p.1 = k then dictErase rest k else p :: dictErase rest k := by
  by_cases h : p.1 = k <;> simp [dictErase, List.filter_cons, h]

theorem dictLookup_erase_self {β : Type} (d : List (String × β)) (k : String) :
    dictLookup (dictErase d k) k = none := by
  induction d with
  | nil => rfl
  | cons p rest ih =>
    rw [dictErase_cons]
    by_cases h : p.1 = k
    · simpa [h] using ih
    · rw [if_neg h, dictLookup_cons, if_neg h]
      exact ih

theorem dictLookup_erase_ne {β : Type} (d : List (String × β)) (k k' : String)
    (h : k' ≠ k) : dictLookup (dictErase d k) k' = dictLookup d k' := by
  induction d with
  | nil => rfl
  | cons p rest ih =>
    rw [dictErase_cons, dictLookup_cons]
    by_cases hp : p.1 = k
    · have hp' : ¬ p.1 = k' := by
        rw [hp]; exact fun hk => h hk.symm
      rw [if_pos hp, if_neg hp']
      exact ih
    · rw [if_neg hp, dictLookup_cons]
      by_cases hq : p.1 = k'
      · rw [if_pos hq, if_pos hq]
      · rw [if_neg hq, if_neg hq]
        exact ih

/-- Value of the in-place-update map at the key being written. -/
theorem dictLookup_mapSet_self {β : Type} (d : List (String × β))
    (k : String) (v : β) (hc : dictContains d k = true) :
    dictLookup (d.map (fun p => if p.1 == k then (k, v) else p)) k
      = some v := by
  induction d with
  | nil => simp [dictContains, dictLookup] at hc
  | cons p rest ih =>
    rw [List.map_cons]
    by_cases hp : p.1 = k
    · simp [dictLookup_cons, hp]
    · rw [dictContains_cons, if_neg hp] at hc
      have : dictLookup (rest.map (fun p => if p.1 == k then (k, v) else p)) k
          = some v := ih hc
      simpa [dictLookup_cons, hp] using this

/-- The in-place-update map leaves other keys' bindings unchanged. -/
theorem dictLookup_mapSet_ne {β : Type} (d : List (String × β))
    (k k' : String) (v : β) (h : k' ≠ k) :
    dictLookup (d.map (fun p => if p.1 == k then (k, v) else p)) k'
      = dictLookup d k' := by
  induction d with
  | nil => rfl
  | cons p rest ih =>
    rw [List.map_cons]
    by_cases hp : p.1 = k
    · have hb : (p.1 == k) = true := by simp [hp]
      have hk' : ¬ k = k' := fun hk => h hk.symm
      have hp' : ¬ p.1 = k' := by rw [hp]; exact hk'
      rw [if_pos hb, dictLookup_cons, dictLookup_cons, if_neg hk',
        if_neg hp', ih]
    · have hb : ¬ ((p.1 == k) = true) := by simp [hp]
      rw [if_neg hb, dictLookup_cons, dictLookup_cons]
      by_cases hq : p.1 = k'
      · rw [if_pos hq, if_pos hq]
      · rw [if_neg hq, if_neg hq, ih]

theorem dictLookup_set_self {β : Type} (d : List (String × β)) (k : String)
    (v : β) : dictLookup (dictSet d k v) k = some v := by
  unfold dictSet
  by_cases hc : dictContains d k = true
  · rw [if_pos hc]
    exact dictLookup_mapSet_self d k v hc
  · rw [if_neg hc]
    induction d with
    | nil => simp [dictLookup_cons]
    | cons p rest ih =>
      rw [dictContains_cons] at hc
      by_cases hp : p.1 = k
      · rw [if_pos hp] at hc; exact absurd rfl hc
      · rw [if_neg hp] at hc
        rw [List.cons_append, dictLookup_cons, if_neg hp]
        exact ih hc

theorem dictLookup_set_ne {β : Type} (d : List (String × β)) (k k' : String)
    (v : β) (h : k' ≠ k) : dictLookup (dictSet d k v) k' = dictLookup d k' := by
  unfold dictSet
  by_cases hc : dictContains d k = true
  · rw [if_pos hc]
    exact dictLookup_mapSet_ne d k k' v h
  · rw [if_neg hc]
    induction d with
    | nil =>
      have hk' : ¬ k = k' := fun hk => h hk.symm
      simp [dictLookup_cons, hk']
    | cons p rest ih =>
      rw [dictContains_cons] at hc
      by_cases hp : p.1 = k
      · rw [if_pos hp] at hc; exact absurd rfl hc
      · rw [if_neg hp] at hc
        rw [List.cons_append, dictLookup_cons, dictLookup_cons]
        by_cases hq : p.1 = k'
        · rw [if_pos hq, if_pos hq]
        · rw [if_neg hq, if_neg hq]
          exact ih hc

/-! ## Message components (`astrbot.api.message_components`)

The plugin stores, inspects and produces message components: `Comp.Plain`,
`Comp.Image`, `Comp.Node` (a forward node carrying a content list), `Comp.At`,
plus raw platform segment dicts that are kept verbatim for unhandled types. -/

inductive MComp : Type where
  | Plain (text : String)
  | Image (url : Option String) (file : Option String)
  | Node (uin : String) (name : String) (content : List MComp) (time : Int)
  | At (qq : String)
  | Raw (segType : String)

/-! ## ConversationPool (`group_message_pools`)

`group_message_pools : Dict[str, Dict[str, List[Dict]]]` maps a group id to a
dict from user id to the user's list of message records. -/

/-- One entry of a user's message list in the pool (`message_record` dict
built in `_add_message_to_pool`). -/
structure MessageRecord where
  timestamp : Int
  messageId : String
  recalled : Bool
  originalMessages : List MComp

abbrev Pool := List (String × List (String × List MessageRecord))

/-- `group_id in pools and user_id in pools[group_id]` — the guard of
`_pop_user_messages_from_pool`. -/
def poolHasUser (pool : Pool) (g u : String) : Bool :=
  match dictLookup pool g with
  | some users => dictContains users u
  | none => false

/-- `_get_user_messages_in_group`: a plain (copying) read of the user's
message list, empty when the group or user is absent. -/
def getUserMessages (pool : Pool) (g u : String) : List MessageRecord :=
  match dictLookup pool g with
  | some users => (dictLookup users u).getD []
  | none => []

/-- `_pop_user_messages_from_pool`: atomically remove and return the user's
entire message list (via `dict.pop`), dropping the group bucket when it
becomes empty; `([], pool)` when the group or user is not present. -/
def popUserMessagesFromPool (pool : Pool) (g u : String) :
    List MessageRecord × Pool :=
  match dictLookup pool g with
  | some users =>
    match dictLookup users u with
    | some userMessages =>
      let users' := dictErase users u
      let pool' := if users'.isEmpty then dictErase pool g
                   else dictSet pool g users'
      (userMessages, pool')
    | none => ([], pool)
  | none => ([], pool)

/-- `_cleanup_expired_messages`: for the given group, keep only records with
`timestamp > current_timestamp - LAST_TIME*60`, drop users left with no
records, and drop the group bucket when it has no users left. -/
def cleanupExpiredMessages (lastTimeMinutes : Int) (pool : Pool) (g : String)
    (currentTimestamp : Int) : Pool :=
  match dictLookup pool g with
  | none => pool
  | some users =>
    let cutoffTime : Int := currentTimestamp - lastTimeMinutes * 60
    let users' :=
      (users.map (fun p =>
        (p.1, p.2.filter (fun msg => cutoffTime < msg.timestamp)))).filter
        (fun p => !p.2.isEmpty)
    if users'.isEmpty then dictErase pool g else dictSet pool g users'

/-- `_add_message_to_pool`: ensure the group and user buckets exist, append a
fresh record, then run the opportunistic cleanup for that group. -/
def addMessageToPool (lastTimeMinutes : Int) (pool : Pool) (g u : String)
    (timestamp : Int) (messageId : String) (originalMessages : List MComp) :
    Pool :=
  let pool1 := if dictContains pool g then pool else dictSet pool g []
  let users := (dictLookup pool1 g).getD []
  let users1 := if dictContains users u then users else dictSet users u []
  let msgs := (dictLookup users1 u).getD []
  let messageRecord : MessageRecord :=
    { timestamp := timestamp, messageId := messageId, recalled := false,
      originalMessages := originalMessages }
  let pool2 := dictSet pool1 g (dictSet users1 u (msgs ++ [messageRecord]))
  cleanupExpiredMessages lastTimeMinutes pool2 g timestamp

/-! ### Pool lemmas shared by several claims -/

theorem poolHasUser_pop_snd (pool : Pool) (g u : String) :
    poolHasUser (popUserMessagesFromPool pool g u).2 g u = false := by
  unfold popUserMessagesFromPool poolHasUser
  cases hg : dictLookup pool g with
  | none => simp [hg]
  | some users =>
    cases hu : dictLookup users u with
    | none => simp [hg, hu, dictContains]
    | some msgs =>
      simp only [hg, hu]
      by_cases he : (dictErase users u).isEmpty = true
      · simp [he, dictLookup_erase_self]
      · simp [he, dictLookup_set_self, dictContains, dictLookup_erase_self]

theorem getUserMessages_eq_empty_of_not_has (pool : Pool) (g u : String)
    (h : poolHasUser pool g u = false) : getUserMessages pool g u = [] := by
  unfold poolHasUser at h
  unfold getUserMessages
  cases hg : dictLookup pool g with
  | none => rfl
  | some users =>
    rw [hg] at h
    cases hu : dictLookup users u with
    | none => simp [hu]
    | some msgs => simp [dictContains, hu] at h

theorem pop_fst_eq_getUserMessages (pool : Pool) (g u : String) :
    (popUserMessagesFromPool pool g u).1 = getUserMessages pool g u := by
  unfold popUserMessagesFromPool getUserMessages
  cases hg : dictLookup pool g with
  | none => rfl
  | some users =>
    cases hu : dictLookup users u with
    | none => simp [hu]
    | some msgs => simp [hu]

theorem pop_of_not_has (pool : Pool) (g u : String)
    (h : poolHasUser pool g u = false) :
    popUserMessagesFromPool pool g u = ([], pool) := by
  unfold poolHasUser at h
  unfold popUserMessagesFromPool
  cases hg : dictLookup pool g with
  | none => rfl
  | some users =>
    rw [hg] at h
    cases hu : dictLookup users u with
    | none => simp [hu]
    | some msgs => simp [dictContains, hu] at h

theorem getUserMessages_pop_snd (pool : Pool) (g u : String) :
    getUserMessages (popUserMessagesFromPool pool g u).2 g u = [] :=
  getUserMessages_eq_empty_of_not_has _ g u (poolHasUser_pop_snd pool g u)

theorem dictLookup_mem {β : Type} (d : List (String × β)) (k : String) (v : β)
    (h : dictLookup d k = some v) : (k, v) ∈ d := by
  induction d with
  | nil => simp [dictLookup] at h
  | cons p rest ih =>
    obtain ⟨a, b⟩ := p
    rw [dictLookup_cons] at h
    by_cases hp : a = k
    · rw [if_pos hp] at h
      subst hp
      rw [Option.some.injEq] at h
      subst h
      exact List.mem_cons_self _ _
    · rw [if_neg hp] at h
      exact List.mem_cons_of_mem _ (ih h)

/-- Every record still reachable for group `g` after a cleanup at time `now`
is younger than the retention cutoff. -/
theorem mem_getUserMessages_cleanup (lastTimeMinutes : Int) (pool : Pool)
    (g u' : String) (now : Int) (r : MessageRecord)
    (hr : r ∈ getUserMessages
        (cleanupExpiredMessages lastTimeMinutes pool g now) g u') :
    now - lastTimeMinutes * 60 < r.timestamp := by
  unfold cleanupExpiredMessages at hr
  cases hg : dictLookup pool g with
  | none =>
    rw [hg] at hr
    simp only at hr
    unfold getUserMessages at hr
    rw [hg] at hr
    simp at hr
  | some users =>
    rw [hg] at hr
    simp only at hr
    set users' :=
      (users.map (fun p =>
        (p.1, p.2.filter
          (fun msg => now - lastTimeMinutes * 60 < msg.timestamp)))).filter
        (fun p => !p.2.isEmpty) with husers'
    by_cases he : users'.isEmpty = true
    · rw [if_pos he] at hr
      unfold getUserMessages at hr
      rw [dictLookup_erase_self] at hr
      simp at hr
    · rw [if_neg he] at hr
      unfold getUserMessages at hr
      rw [dictLookup_set_self] at hr
      simp only at hr
      cases hu : dictLookup users' u' with
      | none => rw [hu] at hr; simp at hr
      | some msgs =>
        rw [hu] at hr
        simp only [Option.getD_some] at hr
        have hmem : (u', msgs) ∈ users' := dictLookup_mem users' u' msgs hu
        rw [husers'] at hmem
        have hmem' := (List.mem_filter.mp hmem).1
        obtain ⟨q, _, hq⟩ := List.mem_map.mp hmem'
        have hmsgs : msgs = q.2.filter
            (fun msg => now - lastTimeMinutes * 60 < msg.timestamp) :=
          (congrArg Prod.snd hq).symm
        rw [hmsgs] at hr
        have := (List.mem_filter.mp hr).2
        exact of_decide_eq_true this

/-! ## Claim C1 -/

/-- A sample pool holding one record for user `u1` in group `g1`. -/
def samplePool : Pool :=
  [("g1", [("u1", [{ timestamp := 10, messageId := "m1", recalled := false,
                     originalMessages := [] }])])]

/-- C1: the pool's atomic take (`_pop_user_messages_from_pool`) returns the
sender's entire current message list and removes the key in one step, so a
second take on the same key (with no intervening append) returns the empty
list, and a take on an absent conversation or sender returns the empty list
(and leaves the pool unchanged) rather than raising an error. -/
theorem c1_pool_atomic_take (pool : Pool) (g u : String) :
    (popUserMessagesFromPool pool g u).1 = getUserMessages pool g u ∧
    poolHasUser (popUserMessagesFromPool pool g u).2 g u = false ∧
    (popUserMessagesFromPool (popUserMessagesFromPool pool g u).2 g u).1
      = [] ∧
    (poolHasUser pool g u = false →
      popUserMessagesFromPool pool g u = ([], pool)) :=
  ⟨pop_fst_eq_getUserMessages pool g u,
   poolHasUser_pop_snd pool g u,
   by rw [pop_fst_eq_getUserMessages]; exact getUserMessages_pop_snd pool g u,
   pop_of_not_has pool g u⟩

/-- Witness for C1 at a concrete one-record pool. -/
theorem c1_pool_atomic_take_witness :
    (popUserMessagesFromPool samplePool "g1" "u1").1
        = getUserMessages samplePool "g1" "u1" ∧
    poolHasUser (popUserMessagesFromPool samplePool "g1" "u1").2 "g1" "u1"
        = false ∧
    (popUserMessagesFromPool
        (popUserMessagesFromPool samplePool "g1" "u1").2 "g1" "u1").1 = [] ∧
    (poolHasUser samplePool "g1" "u1" = false →
      popUserMessagesFromPool samplePool "g1" "u1" = ([], samplePool)) :=
  c1_pool_atomic_take samplePool "g1" "u1"

/-! ## Claim C7 -/

/-- Pool of the retention scenario: one message from `u1` in group `g1` at
time 0, retention window 5 minutes. -/
def scenarioPool : Pool := addMessageToPool 5 [] "g1" "u1" 0 "m1" []

/-- C7: every append (`_add_message_to_pool`) triggers
`_cleanup_expired_messages` for that conversation, so afterwards every record
still reachable in the conversation is younger than the retention cutoff
(records whose age exceeds `LAST_TIME` minutes are gone); concretely, with a
5-minute retention a message appended at t=0 is still present at t=299s and
absent at t=301s once a subsequent append to the same conversation has run
eviction. -/
theorem c7_pool_retention (lastTimeMinutes : Int) (pool : Pool) (g u : String)
    (ts : Int) (mid : String) (om : List MComp) :
    (∀ u' r, r ∈ getUserMessages
        (addMessageToPool lastTimeMinutes pool g u ts mid om) g u' →
        ts - lastTimeMinutes * 60 < r.timestamp) ∧
    (getUserMessages (addMessageToPool 5 scenarioPool "g1" "u2" 299 "m2" [])
        "g1" "u1").map (fun r => r.messageId) = ["m1"] ∧
    (getUserMessages (addMessageToPool 5 scenarioPool "g1" "u2" 301 "m2" [])
        "g1" "u1").map (fun r => r.messageId) = [] := by
  refine ⟨?_, by decide, by decide⟩
  intro u' r hr
  simp only [addMessageToPool] at hr
  exact mem_getUserMessages_cleanup _ _ _ _ _ _ hr

/-- Witness for C7: the record just appended at time 10 with a 5-minute
window is itself within the retention cutoff. -/
theorem c7_pool_retention_witness :
    (10 : Int) - 5 * 60
      < (MessageRecord.mk 10 "m1" false []).timestamp :=
  (c7_pool_retention 5 [] "g1" "u1" 10 "m1" []).1 "u1"
    (MessageRecord.mk 10 "m1" false [])
    (by rw [(rfl :
        getUserMessages (addMessageToPool 5 [] "g1" "u1" 10 "m1" []) "g1" "u1"
          = [MessageRecord.mk 10 "m1" false []])]
        exact List.mem_singleton_self _)

/-! ## Claim C2 — enforcement sequence (`_handle_spam_message_new`)

The platform side effects issued by the enforcement sequence are reified as
an effect trace; the function returns the updated pool, the trace, and the
optional user-visible notice (`plain_result`). -/

inductive Effect : Type where
  | clearQueue (g u : String)
  | mute (u : String) (durationSeconds : Int)
  | forwardEvidence (adminChatId g u : String) (msgs : List MessageRecord)
  | recall (messageId : String)

/-- Effects that constitute enforcement proper (everything after the empty
snapshot check): mute, evidence forwarding, message deletion.  The queue
purge of step 0 happens before the snapshot is taken. -/
def isEnforcementEffect : Effect → Bool
  | .clearQueue _ _ => false
  | .mute _ _ => true
  | .forwardEvidence _ _ _ _ => true
  | .recall _ => true

/-- `_handle_spam_message_new`: purge queued tasks for the pair, atomically
take the snapshot, and — only when the snapshot is non-empty — mute, forward
evidence (when an admin chat is configured), recall each message that has an
id, and return the alert notice.  An empty snapshot aborts with no further
effect and no notice (`return None`). -/
def handleSpamMessageNew (muteDuration : Int) (adminChatId : String)
    (alertMessage : String) (pool : Pool) (g u : String) :
    Pool × List Effect × Option String :=
  let step0 : List Effect := [Effect.clearQueue g u]
  let taken := popUserMessagesFromPool pool g u
  let snapshot := taken.1
  let pool' := taken.2
  if snapshot.isEmpty then
    (pool', step0, none)
  else
    let fwd : List Effect :=
      if adminChatId ≠ "" then
        [Effect.forwardEvidence adminChatId g u snapshot]
      else []
    let recalls : List Effect :=
      (snapshot.filter (fun m => m.messageId ≠ "")).map
        (fun m => Effect.recall m.messageId)
    (pool', step0 ++ [Effect.mute u muteDuration] ++ fwd ++ recalls,
     some alertMessage)

/-- C2: when the atomic take yields an empty snapshot the enforcement
sequence aborts — no mute, no evidence forwarding, no deletion, no notice —
and since the take removes the pair's messages, a second invocation on the
pool left by any first invocation always observes an empty snapshot and
performs no enforcement either, so at most one of two sequential
confirmations for the same pair completes the enforcement steps. -/
theorem c2_empty_snapshot_aborts (muteDuration : Int)
    (adminChatId alertMessage : String) (pool : Pool) (g u : String) :
    (getUserMessages pool g u = [] →
      (handleSpamMessageNew muteDuration adminChatId alertMessage pool g
          u).2.1.filter isEnforcementEffect = [] ∧
      (handleSpamMessageNew muteDuration adminChatId alertMessage pool g
          u).2.2 = none) ∧
    ((handleSpamMessageNew muteDuration adminChatId alertMessage
        (handleSpamMessageNew muteDuration adminChatId alertMessage pool g
          u).1 g u).2.1.filter isEnforcementEffect = [] ∧
      (handleSpamMessageNew muteDuration adminChatId alertMessage
        (handleSpamMessageNew muteDuration adminChatId alertMessage pool g
          u).1 g u).2.2 = none) := by
  have habort : ∀ p : Pool, getUserMessages p g u = [] →
      (handleSpamMessageNew muteDuration adminChatId alertMessage p g
          u).2.1.filter isEnforcementEffect = [] ∧
      (handleSpamMessageNew muteDuration adminChatId alertMessage p g
          u).2.2 = none := by
    intro p hp
    have hsnap : (popUserMessagesFromPool p g u).1 = [] := by
      rw [pop_fst_eq_getUserMessages, hp]
    simp only [handleSpamMessageNew]
    rw [hsnap]
    simp [isEnforcementEffect]
  have hfst : (handleSpamMessageNew muteDuration adminChatId alertMessage
      pool g u).1 = (popUserMessagesFromPool pool g u).2 := by
    simp only [handleSpamMessageNew]
    by_cases hs : (popUserMessagesFromPool pool g u).1.isEmpty = true
    · simp [hs]
    · simp [hs]
  refine ⟨habort pool, ?_⟩
  have hempty : getUserMessages (handleSpamMessageNew muteDuration
      adminChatId alertMessage pool g u).1 g u = [] := by
    rw [hfst]; exact getUserMessages_pop_snd pool g u
  exact habort _ hempty

/-- Witness for C2 on a pool not containing the pair at all. -/
theorem c2_empty_snapshot_aborts_witness :
    (handleSpamMessageNew 600 "admin" "alert" [] "g1"
        "u1").2.1.filter isEnforcementEffect = [] ∧
    (handleSpamMessageNew 600 "admin" "alert" [] "g1" "u1").2.2 = none :=
  (c2_empty_snapshot_aborts 600 "admin" "alert" [] "g1" "u1").1 rfl

/-! ## Claim C3 — concurrency guard (`_process_task_batch`)

The in-flight set `processing_users` is modelled as a duplicate-free list of
`(group_id, user_id)` pairs with Python-`set` add/discard.  The classifier
call (`_batch_spam_detection` and everything it can raise) is a parameter
returning `Except`, covering both the success and the exception exit paths
that the `finally` cleanup must handle.  The image-content extraction inside
`_build_full_content` is likewise an external-call parameter. -/

/-- Python `set.add`. -/
def setInsert {α : Type} [DecidableEq α] (s : List α) (x : α) : List α :=
  if x ∈ s then s else s ++ [x]

/-- Python `set.discard`. -/
def setDiscard {α : Type} [DecidableEq α] (s : List α) (x : α) : List α :=
  s.filter (fun y => y ≠ x)

theorem mem_setInsert_iff {α : Type} [DecidableEq α] (s : List α) (x y : α) :
    y ∈ setInsert s x ↔ y ∈ s ∨ y = x := by
  unfold setInsert
  by_cases h : x ∈ s
  · rw [if_pos h]
    constructor
    · exact Or.inl
    · rintro (hy | rfl)
      · exact hy
      · exact h
  · rw [if_neg h]
    simp

theorem mem_setDiscard_iff {α : Type} [DecidableEq α] (s : List α) (x y : α) :
    y ∈ setDiscard s x ↔ y ∈ s ∧ y ≠ x := by
  unfold setDiscard
  simp

theorem mem_foldl_setInsert {α : Type} [DecidableEq α] (xs : List α)
    (s : List α) (y : α) : y ∈ xs.foldl setInsert s ↔ y ∈ s ∨ y ∈ xs := by
  induction xs generalizing s with
  | nil => simp
  | cons x rest ih =>
    rw [List.foldl_cons, ih, mem_setInsert_iff]
    simp [or_assoc]

theorem mem_foldl_setDiscard {α : Type} [DecidableEq α] (xs : List α)
    (s : List α) (y : α) : y ∈ xs.foldl setDiscard s ↔ y ∈ s ∧ y ∉ xs := by
  induction xs generalizing s with
  | nil => simp
  | cons x rest ih =>
    rw [List.foldl_cons, ih, mem_setDiscard_iff]
    simp only [List.mem_cons]
    constructor
    · rintro ⟨⟨hs, hne⟩, hrest⟩
      exact ⟨hs, by rintro (rfl | hr) <;> [exact hne rfl; exact hrest hr]⟩
    · rintro ⟨hs, hnot⟩
      exact ⟨⟨hs, fun hx => hnot (Or.inl hx)⟩, fun hr => hnot (Or.inr hr)⟩

/-- A detection task tuple
`(group_id, user_id, user_name, message_content, timestamp, image_urls,
event)`; the event handle is opaque and omitted. -/
structure DTask where
  groupId : String
  userId : String
  userName : String
  content : String
  timestamp : Int
  imageUrls : List String

/-- `_build_full_content`: append the vision-model extraction of the task's
images (an external call, passed as `imageExtract`) when it is non-empty. -/
def buildFullContent (imageExtract : List String → String) (t : DTask) :
    String :=
  if t.imageUrls.isEmpty then t.content
  else
    let imageContent := imageExtract t.imageUrls
    if imageContent ≠ "" then
      t.content ++ "\n[图片内容]: " ++ imageContent
    else t.content

/-- Accumulator of the request-building loop of `_process_task_batch`:
`batch_input`, `task_map`, `users_to_lock`, `num`. -/
structure BatchBuildState where
  batchInput : List (String × String)
  taskMap : List (String × DTask)
  usersToLock : List (String × String)
  num : Nat

/-- One iteration of the `for task in tasks` loop of `_process_task_batch`:
skip pairs already in `processing_users`, otherwise merge the task's full
content into `batch_input` (newline-joining repeats of the same user),
record the first task per user in `task_map`, and mark the pair to lock. -/
def buildStep (inFlight : List (String × String)) (g : String)
    (full : DTask → String) (st : BatchBuildState) (t : DTask) :
    BatchBuildState :=
  let userLock := (g, t.userId)
  if userLock ∈ inFlight then st
  else
    let fullContent := full t
    let st' :=
      match dictLookup st.batchInput t.userId with
      | some existing =>
        { st with batchInput :=
            dictSet st.batchInput t.userId (existing ++ "\n" ++ fullContent) }
      | none =>
        { st with
            batchInput := dictSet st.batchInput t.userId fullContent,
            taskMap := dictSet st.taskMap t.userId t }
    { st' with usersToLock := setInsert st'.usersToLock userLock,
               num := st'.num + 1 }

def emptyBuildState : BatchBuildState := ⟨[], [], [], 0⟩

/-- The whole request-building loop. -/
def buildBatchInput (inFlight : List (String × String)) (g : String)
    (full : DTask → String) (tasks : List DTask) : BatchBuildState :=
  tasks.foldl (buildStep inFlight g full) emptyBuildState

/-- Observable outcome of one `_process_task_batch` round: the in-flight set
while the classifier call runs, the in-flight set after the `finally`
cleanup, and the user ids actually handed to
`_handle_spam_detection_result`. -/
structure BatchOutcome where
  inFlightDuring : List (String × String)
  inFlightAfter : List (String × String)
  handled : List String

/-- `_process_task_batch`: early return on no tasks or an all-skipped batch;
otherwise lock all `users_to_lock`, run the classifier (success or raised
exception), handle only returned ids present in `task_map`, and always
discard the locks afterwards (`finally`). -/
def processTaskBatch (inFlight : List (String × String)) (g : String)
    (full : DTask → String)
    (detect : List (String × String) → Except Unit (List String))
    (tasks : List DTask) : BatchOutcome :=
  if tasks.isEmpty then ⟨inFlight, inFlight, []⟩
  else
    let b := buildBatchInput inFlight g full tasks
    if b.batchInput.isEmpty then ⟨inFlight, inFlight, []⟩
    else
      let during := b.usersToLock.foldl setInsert inFlight
      let handled :=
        match detect b.batchInput with
        | .ok ids => ids.filter (fun uid => (dictLookup b.taskMap uid).isSome)
        | .error _ => []
      let after := b.usersToLock.foldl setDiscard during
      ⟨during, after, handled⟩

theorem buildStep_skip (inFlight : List (String × String)) (g : String)
    (full : DTask → String) (st : BatchBuildState) (t : DTask)
    (h : (g, t.userId) ∈ inFlight) : buildStep inFlight g full st t = st := by
  simp only [buildStep, if_pos h]

theorem buildStep_lookup_none (inFlight : List (String × String)) (g : String)
    (full : DTask → String) (st : BatchBuildState) (t : DTask) (uid : String)
    (hin : (g, uid) ∈ inFlight)
    (h1 : dictLookup st.batchInput uid = none)
    (h2 : dictLookup st.taskMap uid = none) :
    dictLookup (buildStep inFlight g full st t).batchInput uid = none ∧
    dictLookup (buildStep inFlight g full st t).taskMap uid = none := by
  by_cases hskip : (g, t.userId) ∈ inFlight
  · rw [buildStep_skip inFlight g full st t hskip]
    exact ⟨h1, h2⟩
  · have hne : uid ≠ t.userId := by
      intro he; exact hskip (he ▸ hin)
    simp only [buildStep, if_neg hskip]
    cases hl : dictLookup st.batchInput t.userId with
    | some existing =>
      simp only [hl]
      exact ⟨by rw [dictLookup_set_ne _ _ _ _ hne]; exact h1, h2⟩
    | none =>
      simp only [hl]
      exact ⟨by rw [dictLookup_set_ne _ _ _ _ hne]; exact h1,
             by rw [dictLookup_set_ne _ _ _ _ hne]; exact h2⟩

theorem foldl_buildStep_lookup_none (inFlight : List (String × String))
    (g : String) (full : DTask → String) (uid : String)
    (hin : (g, uid) ∈ inFlight) :
    ∀ (tasks : List DTask) (st : BatchBuildState),
      dictLookup st.batchInput uid = none →
      dictLookup st.taskMap uid = none →
      dictLookup (tasks.foldl (buildStep inFlight g full) st).batchInput uid
          = none ∧
      dictLookup (tasks.foldl (buildStep inFlight g full) st).taskMap uid
          = none := by
  intro tasks
  induction tasks with
  | nil => intro st h1 h2; exact ⟨h1, h2⟩
  | cons t rest ih =>
    intro st h1 h2
    rw [List.foldl_cons]
    obtain ⟨h1', h2'⟩ :=
      buildStep_lookup_none inFlight g full st t uid hin h1 h2
    exact ih _ h1' h2'

theorem buildStep_usersToLock_not_inFlight
    (inFlight : List (String × String)) (g : String) (full : DTask → String)
    (st : BatchBuildState) (t : DTask)
    (h : ∀ pr ∈ st.usersToLock, pr ∉ inFlight) :
    ∀ pr ∈ (buildStep inFlight g full st t).usersToLock, pr ∉ inFlight := by
  by_cases hskip : (g, t.userId) ∈ inFlight
  · rw [buildStep_skip inFlight g full st t hskip]; exact h
  · intro pr hpr
    simp only [buildStep, if_neg hskip] at hpr
    have : pr ∈ setInsert st.usersToLock (g, t.userId) := by
      cases hl : dictLookup st.batchInput t.userId with
      | some existing => simpa [hl] using hpr
      | none => simpa [hl] using hpr
    rcases (mem_setInsert_iff _ _ _).mp this with hmem | rfl
    · exact h pr hmem
    · exact hskip

theorem buildStep_usersToLock_mono (inFlight : List (String × String))
    (g : String) (full : DTask → String) (st : BatchBuildState) (t : DTask)
    (pr : String × String) (h : pr ∈ st.usersToLock) :
    pr ∈ (buildStep inFlight g full st t).usersToLock := by
  by_cases hskip : (g, t.userId) ∈ inFlight
  · rw [buildStep_skip inFlight g full st t hskip]; exact h
  · simp only [buildStep, if_neg hskip]
    cases hl : dictLookup st.batchInput t.userId with
    | some existing =>
      simpa [hl] using (mem_setInsert_iff st.usersToLock _ pr).mpr (Or.inl h)
    | none =>
      simpa [hl] using (mem_setInsert_iff st.usersToLock _ pr).mpr (Or.inl h)

theorem foldl_buildStep_usersToLock_mono (inFlight : List (String × String))
    (g : String) (full : DTask → String) (pr : String × String) :
    ∀ (tasks : List DTask) (st : BatchBuildState), pr ∈ st.usersToLock →
      pr ∈ (tasks.foldl (buildStep inFlight g full) st).usersToLock := by
  intro tasks
  induction tasks with
  | nil => intro st h; exact h
  | cons t rest ih =>
    intro st h
    rw [List.foldl_cons]
    exact ih _ (buildStep_usersToLock_mono inFlight g full st t pr h)

theorem buildStep_usersToLock_self (inFlight : List (String × String))
    (g : String) (full : DTask → String) (st : BatchBuildState) (t : DTask)
    (hskip : (g, t.userId) ∉ inFlight) :
    (g, t.userId) ∈ (buildStep inFlight g full st t).usersToLock := by
  simp only [buildStep, if_neg hskip]
  cases hl : dictLookup st.batchInput t.userId with
  | some existing =>
    simpa [hl] using
      (mem_setInsert_iff st.usersToLock (g, t.userId) _).mpr (Or.inr rfl)
  | none =>
    simpa [hl] using
      (mem_setInsert_iff st.usersToLock (g, t.userId) _).mpr (Or.inr rfl)

theorem foldl_buildStep_usersToLock_reach (inFlight : List (String × String))
    (g : String) (full : DTask → String) :
    ∀ (tasks : List DTask) (st : BatchBuildState) (t : DTask), t ∈ tasks →
      (g, t.userId) ∉ inFlight →
      (g, t.userId) ∈ (tasks.foldl (buildStep inFlight g full) st).usersToLock := by
  intro tasks
  induction tasks with
  | nil => intro st t ht; exact absurd ht (List.not_mem_nil t)
  | cons x rest ih =>
    intro st t ht hskip
    rw [List.foldl_cons]
    rcases List.mem_cons.mp ht with rfl | hrest
    · exact foldl_buildStep_usersToLock_mono inFlight g full _ rest _
        (buildStep_usersToLock_self inFlight g full st t hskip)
    · exact ih _ t hrest hskip

theorem buildStep_batchInput_isSome_mono (inFlight : List (String × String))
    (g : String) (full : DTask → String) (st : BatchBuildState) (t : DTask)
    (uid : String) (h : (dictLookup st.batchInput uid).isSome = true) :
    (dictLookup (buildStep inFlight g full st t).batchInput uid).isSome
      = true := by
  by_cases hskip : (g, t.userId) ∈ inFlight
  · rw [buildStep_skip inFlight g full st t hskip]; exact h
  · simp only [buildStep, if_neg hskip]
    by_cases huid : uid = t.userId
    · cases hl : dictLookup st.batchInput t.userId with
      | some existing => simp [hl, huid, dictLookup_set_self]
      | none => simp [hl, huid, dictLookup_set_self]
    · cases hl : dictLookup st.batchInput t.userId with
      | some existing => simpa [hl, dictLookup_set_ne _ _ _ _ huid] using h
      | none => simpa [hl, dictLookup_set_ne _ _ _ _ huid] using h

theorem buildStep_batchInput_isSome_self (inFlight : List (String × String))
    (g : String) (full : DTask → String) (st : BatchBuildState) (t : DTask)
    (hskip : (g, t.userId) ∉ inFlight) :
    (dictLookup (buildStep inFlight g full st t).batchInput
        t.userId).isSome = true := by
  simp only [buildStep, if_neg hskip]
  cases hl : dictLookup st.batchInput t.userId with
  | some existing => simp [hl, dictLookup_set_self]
  | none => simp [hl, dictLookup_set_self]

theorem foldl_buildStep_batchInput_isSome_mono
    (inFlight : List (String × String)) (g : String) (full : DTask → String)
    (uid : String) :
    ∀ (tasks : List DTask) (st : BatchBuildState),
      (dictLookup st.batchInput uid).isSome = true →
      (dictLookup (tasks.foldl (buildStep inFlight g full) st).batchInput
          uid).isSome = true := by
  intro tasks
  induction tasks with
  | nil => intro st h; exact h
  | cons t rest ih =>
    intro st h
    rw [List.foldl_cons]
    exact ih _ (buildStep_batchInput_isSome_mono inFlight g full st t uid h)

theorem foldl_buildStep_batchInput_reach (inFlight : List (String × String))
    (g : String) (full : DTask → String) :
    ∀ (tasks : List DTask) (st : BatchBuildState) (t : DTask), t ∈ tasks →
      (g, t.userId) ∉ inFlight →
      (dictLookup (tasks.foldl (buildStep inFlight g full) st).batchInput
          t.userId).isSome = true := by
  intro tasks
  induction tasks with
  | nil => intro st t ht; exact absurd ht (List.not_mem_nil t)
  | cons x rest ih =>
    intro st t ht hskip
    rw [List.foldl_cons]
    rcases List.mem_cons.mp ht with rfl | hrest
    · exact foldl_buildStep_batchInput_isSome_mono inFlight g full t.userId
        rest _ (buildStep_batchInput_isSome_self inFlight g full st t hskip)
    · exact ih _ t hrest hskip

theorem ne_nil_of_dictLookup_isSome {β : Type} (d : List (String × β))
    (k : String) (h : (dictLookup d k).isSome = true) : d ≠ [] := by
  intro he
  subst he
  simp [dictLookup] at h

theorem isEmpty_false_of_ne_nil {α : Type} (l : List α) (h : l ≠ []) :
    l.isEmpty = false := by
  cases l with
  | nil => exact absurd rfl h
  | cons a as => rfl

theorem foldl_buildStep_usersToLock_not_inFlight
    (inFlight : List (String × String)) (g : String) (full : DTask → String) :
    ∀ (tasks : List DTask) (st : BatchBuildState),
      (∀ pr ∈ st.usersToLock, pr ∉ inFlight) →
      ∀ pr ∈ (tasks.foldl (buildStep inFlight g full) st).usersToLock,
        pr ∉ inFlight := by
  intro tasks
  induction tasks with
  | nil => intro st h; exact h
  | cons t rest ih =>
    intro st h
    rw [List.foldl_cons]
    exact ih _ (buildStep_usersToLock_not_inFlight inFlight g full st t h)

theorem processTaskBatch_empty_tasks (inFlight : List (String × String))
    (g : String) (full : DTask → String)
    (detect : List (String × String) → Except Unit (List String))
    (tasks : List DTask) (h : tasks.isEmpty = true) :
    processTaskBatch inFlight g full detect tasks
      = ⟨inFlight, inFlight, []⟩ := by
  simp [processTaskBatch, h]

theorem processTaskBatch_empty_batch (inFlight : List (String × String))
    (g : String) (full : DTask → String)
    (detect : List (String × String) → Except Unit (List String))
    (tasks : List DTask) (h1 : tasks.isEmpty = false)
    (h2 : (buildBatchInput inFlight g full tasks).batchInput.isEmpty = true) :
    processTaskBatch inFlight g full detect tasks
      = ⟨inFlight, inFlight, []⟩ := by
  simp [processTaskBatch, h1, h2]

theorem processTaskBatch_main (inFlight : List (String × String))
    (g : String) (full : DTask → String)
    (detect : List (String × String) → Except Unit (List String))
    (tasks : List DTask) (h1 : tasks.isEmpty = false)
    (h2 : (buildBatchInput inFlight g full tasks).batchInput.isEmpty
        = false) :
    processTaskBatch inFlight g full detect tasks =
      ⟨(buildBatchInput inFlight g full tasks).usersToLock.foldl setInsert
          inFlight,
       (buildBatchInput inFlight g full tasks).usersToLock.foldl setDiscard
         ((buildBatchInput inFlight g full tasks).usersToLock.foldl setInsert
           inFlight),
       match detect (buildBatchInput inFlight g full tasks).batchInput with
       | .ok ids => ids.filter (fun uid =>
           (dictLookup (buildBatchInput inFlight g full tasks).taskMap
             uid).isSome)
       | .error _ => []⟩ := by
  simp [processTaskBatch, h1, h2]

/-- C3: in a batch-classification round, every task whose pair is already
in the in-flight set is skipped — its text never enters `batch_input` and
its user id can never be handled — and every non-skipped pair is in the
in-flight set during the classifier call, while after the round (success or
exception alike) the in-flight set holds exactly the pairs it held before. -/
theorem c3_concurrency_guard (inFlight : List (String × String)) (g : String)
    (full : DTask → String)
    (detect : List (String × String) → Except Unit (List String))
    (tasks : List DTask) :
    (∀ t ∈ tasks, (g, t.userId) ∈ inFlight →
        dictLookup (buildBatchInput inFlight g full tasks).batchInput
          t.userId = none ∧
        t.userId ∉ (processTaskBatch inFlight g full detect tasks).handled) ∧
    (∀ t ∈ tasks, (g, t.userId) ∉ inFlight →
        (g, t.userId) ∈
          (processTaskBatch inFlight g full detect tasks).inFlightDuring) ∧
    (∀ pr, pr ∈ (processTaskBatch inFlight g full detect tasks).inFlightAfter
        ↔ pr ∈ inFlight) := by
  have hlocks : ∀ pr ∈ (buildBatchInput inFlight g full tasks).usersToLock,
      pr ∉ inFlight :=
    foldl_buildStep_usersToLock_not_inFlight inFlight g full tasks
      emptyBuildState (by intro pr hpr; simp [emptyBuildState] at hpr)
  refine ⟨?_, ?_, ?_⟩
  · intro t ht hin
    obtain ⟨hb, hm⟩ := foldl_buildStep_lookup_none inFlight g full t.userId
      hin tasks emptyBuildState rfl rfl
    refine ⟨hb, ?_⟩
    intro hhand
    by_cases hte : tasks.isEmpty = true
    · rw [processTaskBatch_empty_tasks inFlight g full detect tasks hte]
        at hhand
      exact List.not_mem_nil _ hhand
    · have hte' : tasks.isEmpty = false := Bool.eq_false_iff.mpr hte
      by_cases hbe : (buildBatchInput inFlight g full
          tasks).batchInput.isEmpty = true
      · rw [processTaskBatch_empty_batch inFlight g full detect tasks hte'
          hbe] at hhand
        exact List.not_mem_nil _ hhand
      · have hbe' : (buildBatchInput inFlight g full
            tasks).batchInput.isEmpty = false := Bool.eq_false_iff.mpr hbe
        rw [processTaskBatch_main inFlight g full detect tasks hte' hbe']
          at hhand
        simp only at hhand
        cases hdet : detect (buildBatchInput inFlight g full tasks).batchInput
          with
        | ok ids =>
          rw [hdet] at hhand
          have hm' : dictLookup (buildBatchInput inFlight g full
              tasks).taskMap t.userId = none := hm
          have := (List.mem_filter.mp hhand).2
          rw [hm'] at this
          simp at this
        | error e =>
          rw [hdet] at hhand
          exact List.not_mem_nil _ hhand
  · intro t ht hskip
    have hte' : tasks.isEmpty = false :=
      isEmpty_false_of_ne_nil tasks (List.ne_nil_of_mem ht)
    have hbe' : (buildBatchInput inFlight g full tasks).batchInput.isEmpty
        = false :=
      isEmpty_false_of_ne_nil _ (ne_nil_of_dictLookup_isSome _ _
        (foldl_buildStep_batchInput_reach inFlight g full tasks
          emptyBuildState t ht hskip))
    rw [processTaskBatch_main inFlight g full detect tasks hte' hbe']
    simp only
    rw [mem_foldl_setInsert]
    exact Or.inr (foldl_buildStep_usersToLock_reach inFlight g full tasks
      emptyBuildState t ht hskip)
  · intro pr
    by_cases hte : tasks.isEmpty = true
    · rw [processTaskBatch_empty_tasks inFlight g full detect tasks hte]
    · have hte' : tasks.isEmpty = false := Bool.eq_false_iff.mpr hte
      by_cases hbe : (buildBatchInput inFlight g full
          tasks).batchInput.isEmpty = true
      · rw [processTaskBatch_empty_batch inFlight g full detect tasks hte'
          hbe]
      · have hbe' : (buildBatchInput inFlight g full
            tasks).batchInput.isEmpty = false := Bool.eq_false_iff.mpr hbe
        rw [processTaskBatch_main inFlight g full detect tasks hte' hbe']
        simp only
        rw [mem_foldl_setDiscard, mem_foldl_setInsert]
        constructor
        · rintro ⟨hin | hlk, hnot⟩
          · exact hin
          · exact absurd hlk hnot
        · intro hin
          exact ⟨Or.inl hin, fun hlk => hlocks pr hlk hin⟩

/-- Sample data for the C3 witness: `u1` already in flight, `u2` fresh. -/
def sampleTask1 : DTask :=
  { groupId := "g1", userId := "u1", userName := "n1", content := "hello",
    timestamp := 0, imageUrls := [] }

def sampleTask2 : DTask :=
  { groupId := "g1", userId := "u2", userName := "n2", content := "buy now",
    timestamp := 0, imageUrls := [] }

/-- Witness for C3: with `("g1","u1")` in flight, `u1`'s task is skipped
and cannot be handled even though the classifier names it. -/
theorem c3_concurrency_guard_witness :
    dictLookup (buildBatchInput [("g1", "u1")] "g1"
        (buildFullContent (fun _ => ""))
        [sampleTask1, sampleTask2]).batchInput sampleTask1.userId = none ∧
    sampleTask1.userId ∉ (processTaskBatch [("g1", "u1")] "g1"
        (buildFullContent (fun _ => "")) (fun _ => .ok ["u1", "u2"])
        [sampleTask1, sampleTask2]).handled :=
  (c3_concurrency_guard [("g1", "u1")] "g1" (buildFullContent (fun _ => ""))
      (fun _ => .ok ["u1", "u2"]) [sampleTask1, sampleTask2]).1
    sampleTask1 (List.mem_cons_self _ _) (by decide)

/-! ## Claim C4 — global rate limiting (`_detection_worker`)

Wall-clock instants (Python `time.time()` floats) are modelled as integer
time points; the claims involve only ordering and exact differences.  One
flush's rate-limiting step computes `time_since_last_call` from the
iteration's sampled `now`, sleeps the remainder when it is below
`rate_limit`, then records the post-sleep clock as `last_model_call_time`
immediately before dispatching the batch.  `realTime` is the wall clock at
the moment the flush fires; it satisfies `now ≤ realTime` because `now` was
sampled earlier in the same loop iteration, and the sleep is modelled as
advancing the wall clock by exactly the requested duration. -/

def flushRateLimitStep (rateLimit lastModelCallTime now realTime : Int) :
    Int × Int :=
  let timeSinceLastCall := now - lastModelCallTime
  let sleepTime := if timeSinceLastCall < rateLimit
                   then rateLimit - timeSinceLastCall else 0
  let dispatchTime := realTime + sleepTime
  (sleepTime, dispatchTime)

theorem flush_dispatch_spaced (rateLimit lastCall now realTime : Int)
    (h : now ≤ realTime) :
    rateLimit ≤ (flushRateLimitStep rateLimit lastCall now realTime).2
      - lastCall := by
  simp only [flushRateLimitStep]
  by_cases hc : now - lastCall < rateLimit
  · rw [if_pos hc]; omega
  · rw [if_neg hc]; omega

/-- C4: each dispatched classification call happens at least `rate_limit`
after the recorded previous call — in particular two consecutive dispatches
(the second seeing the first's dispatch time as `last_model_call_time`) are
at least `rate_limit` apart, across all conversations — and when less than
`rate_limit` has elapsed the scheduler sleeps exactly the remainder. -/
theorem c4_global_rate_limit (rateLimit lastCall now₁ rt₁ now₂ rt₂ : Int)
    (h₁ : now₁ ≤ rt₁) (h₂ : now₂ ≤ rt₂) :
    rateLimit ≤ (flushRateLimitStep rateLimit lastCall now₁ rt₁).2
        - lastCall ∧
    (now₁ - lastCall < rateLimit →
      (flushRateLimitStep rateLimit lastCall now₁ rt₁).1
        = rateLimit - (now₁ - lastCall)) ∧
    rateLimit ≤ (flushRateLimitStep rateLimit
          (flushRateLimitStep rateLimit lastCall now₁ rt₁).2 now₂ rt₂).2
        - (flushRateLimitStep rateLimit lastCall now₁ rt₁).2 :=
  ⟨flush_dispatch_spaced rateLimit lastCall now₁ rt₁ h₁,
   by intro hc; simp only [flushRateLimitStep]; rw [if_pos hc],
   flush_dispatch_spaced rateLimit _ now₂ rt₂ h₂⟩

/-- Witness for C4: rate limit 2, last call at 0, flush conditions firing
at times 1 and 2. -/
theorem c4_global_rate_limit_witness :
    (2 : Int) ≤ (flushRateLimitStep 2 0 1 1).2 - 0 ∧
    ((1 : Int) - 0 < 2 →
      (flushRateLimitStep 2 0 1 1).1 = 2 - ((1 : Int) - 0)) ∧
    (2 : Int) ≤ (flushRateLimitStep 2 (flushRateLimitStep 2 0 1 1).2 2 3).2
        - (flushRateLimitStep 2 0 1 1).2 :=
  c4_global_rate_limit 2 0 1 1 2 3 (by decide) (by decide)

/-! ## Claim C5 — flush conditions (`_detection_worker`) -/

/-- `total_chars = sum(len(task[3] or "") for task in tasks)` — image-only
content counts as its (empty) text. -/
def batchTotalChars (tasks : List DTask) : Nat :=
  (tasks.map (fun t => t.content.length)).sum

/-- The per-conversation flush decision of the worker loop: skip empty
buffers (`if not tasks: continue`), then flush when
`len(tasks) >= batch_size or now - batch_timer > batch_wait_time or
total_chars > max_chars`. -/
def shouldFlushBatch (batchSize batchWaitTime maxChars now batchTimer : Int)
    (tasks : List DTask) : Bool :=
  if tasks.isEmpty then false
  else decide (batchSize ≤ (tasks.length : Int))
    || decide (batchWaitTime < now - batchTimer)
    || decide (maxChars < (batchTotalChars tasks : Int))

/-- C5: a non-empty open batch is flushed iff the task count reaches the
batch size, or the elapsed time exceeds the batch wait time, or the
cumulative text length exceeds the max text length; in particular a single
task whose text alone exceeds the limit is flushed as a batch of one. -/
theorem c5_flush_conditions (batchSize batchWaitTime maxChars now
    batchTimer : Int) (tasks : List DTask) :
    (tasks ≠ [] →
      (shouldFlushBatch batchSize batchWaitTime maxChars now batchTimer tasks
          = true ↔
        (batchSize ≤ (tasks.length : Int) ∨
         batchWaitTime < now - batchTimer ∨
         maxChars < (batchTotalChars tasks : Int)))) ∧
    (∀ t : DTask, maxChars < (t.content.length : Int) →
      shouldFlushBatch batchSize batchWaitTime maxChars now batchTimer [t]
        = true) := by
  constructor
  · intro hne
    rw [shouldFlushBatch, if_neg (by simp [isEmpty_false_of_ne_nil _ hne])]
    simp [Bool.or_eq_true, decide_eq_true_iff, or_assoc]
  · intro t ht
    rw [shouldFlushBatch, if_neg (by simp)]
    have : maxChars < (batchTotalChars [t] : Int) := by
      simpa [batchTotalChars] using ht
    simp [this]

/-- A task whose text alone (12 characters) exceeds a 10-character batch
text limit. -/
def oversizeTask : DTask :=
  { groupId := "g1", userId := "u3", userName := "n3",
    content := "0123456789ab", timestamp := 0, imageUrls := [] }

/-- Witness for C5: the oversize single-task batch is flushed. -/
theorem c5_flush_conditions_witness :
    (shouldFlushBatch 3 5 10 0 0 [oversizeTask] = true ↔
      ((3 : Int) ≤ (([oversizeTask] : List DTask).length : Int) ∨
       (5 : Int) < 0 - 0 ∨
       (10 : Int) < (batchTotalChars [oversizeTask] : Int))) ∧
    shouldFlushBatch 3 5 10 0 0 [oversizeTask] = true :=
  ⟨(c5_flush_conditions 3 5 10 0 0 [oversizeTask]).1 (List.cons_ne_nil _ _),
   (c5_flush_conditions 3 5 10 0 0 [oversizeTask]).2 oversizeTask
     (by decide)⟩

/-! ## Claim C6 — classifier result handling (`_batch_spam_detection`)

Python string primitives (`strip`, slicing, `startswith`, `endswith`) are
modelled on the character sequence, exactly as Python indexes strings by
code points.  `json.loads` (Python stdlib) is a parameter
`parseJson : String → Option JVal`, `none` standing for
`json.JSONDecodeError`; `_call_text_model` is a parameter too, `none`
standing for its `None` return (API failure, timeout, empty choices). -/

/-- Python `str.strip()` (no argument: strip whitespace at both ends). -/
def pyStrip (s : String) : String :=
  String.mk
    (((s.data.dropWhile Char.isWhitespace).reverse.dropWhile
        Char.isWhitespace).reverse)

/-- Python `s[n:]`. -/
def pyDrop (s : String) (n : Nat) : String := String.mk (s.data.drop n)

/-- Python `s[:-n]` (for `n ≤ len(s)`). -/
def pyDropRight (s : String) (n : Nat) : String :=
  String.mk (s.data.take (s.data.length - n))

/-- Python `str.startswith`. -/
def pyStartsWith (s pre : String) : Bool := pre.data.isPrefixOf s.data

/-- Python `str.endswith`. -/
def pyEndsWith (s suf : String) : Bool := suf.data.isSuffixOf s.data

/-- A decoded JSON value (result of `json.loads`). -/
inductive JVal : Type where
  | jnull
  | jbool (b : Bool)
  | jnum (n : Int)
  | jstr (s : String)
  | jarr (elems : List JVal)
  | jobj (fields : List (String × JVal))

/-- Python `str()` on a decoded JSON value; the scalar cases are exact (the
classifier contract sends numbers or strings as user ids), container reprs
are abbreviated, which no claim depends on. -/
def pyStr : JVal → String
  | .jnull => "None"
  | .jbool true => "True"
  | .jbool false => "False"
  | .jnum n => toString n
  | .jstr s => s
  | .jarr _ => "[...]"
  | .jobj _ => "\x7b...\x7d"

/-- `[str(uid) for uid in y]`: Python iteration over the decoded `y` —
lists map `str` over their elements, strings iterate their characters,
dicts iterate their keys; numbers, booleans and `None` raise `TypeError`
(`none`), which the outer `except Exception` of `_batch_spam_detection`
turns into `[]`. -/
def iterStrList : JVal → Option (List String)
  | .jarr xs => some (xs.map pyStr)
  | .jstr s => some (s.data.map (fun c => String.mk [c]))
  | .jobj fs => some (fs.map (fun p => p.1))
  | _ => none

/-- `result_json.get("y", [])`; `none` models the `AttributeError` raised
when the decoded value is not a dict (also caught by the outer `except`). -/
def getYField : JVal → Option JVal
  | .jobj fs => some ((dictLookup fs "y").getD (.jarr []))
  | _ => none

/-- The markdown-fence cleanup of `_batch_spam_detection`: strip, remove a
leading ```` ```json ````, remove a trailing ```` ``` ````, strip again. -/
def cleanModelResult (result : String) : String :=
  let c := pyStrip result
  let c := if pyStartsWith c "```json" then pyDrop c 7 else c
  let c := if pyEndsWith c "```" then pyDropRight c 3 else c
  pyStrip c

/-- The result-handling part of `_batch_spam_detection`. -/
def batchSpamDetection (textApiKey : String) (modelResult : Option String)
    (parseJson : String → Option JVal) : List String :=
  if textApiKey = "" then []
  else
    match modelResult with
    | none => []
    | some result =>
      if result ≠ "" then
        match parseJson (cleanModelResult result) with
        | none => []
        | some resultJson =>
          match getYField resultJson with
          | none => []
          | some y => (iterStrList y).getD []
      else []

/-- C6: the handler strips the ```` ```json ````/```` ``` ```` fence before
parsing; a missing key, missing or empty model response, unparsable cleaned
response, or extraction error all yield `[]` (logged, never raised); and a
well-formed `{"y": [...]}` response yields the string forms of the listed
ids — so the function totally returns a (possibly empty) list of strings. -/
theorem c6_result_parsing (key r : String)
    (parseJson : String → Option JVal) :
    (pyStartsWith (pyStrip r) "```json" = true →
      pyEndsWith (pyDrop (pyStrip r) 7) "```" = true →
      cleanModelResult r
        = pyStrip (pyDropRight (pyDrop (pyStrip r) 7) 3)) ∧
    (parseJson (cleanModelResult r) = none →
      batchSpamDetection key (some r) parseJson = []) ∧
    batchSpamDetection key none parseJson = [] ∧
    batchSpamDetection key (some "") parseJson = [] ∧
    (∀ resultJson, parseJson (cleanModelResult r) = some resultJson →
      getYField resultJson = none →
      batchSpamDetection key (some r) parseJson = []) ∧
    (∀ ids, parseJson (cleanModelResult r) = some (.jobj [("y", .jarr ids)]) →
      key ≠ "" → r ≠ "" →
      batchSpamDetection key (some r) parseJson = ids.map pyStr) := by
  refine ⟨?_, ?_, ?_, ?_, ?_, ?_⟩
  · intro h1 h2
    simp only [cleanModelResult, h1, if_true, h2]
  · intro hp
    by_cases hk : key = ""
    · simp [batchSpamDetection, hk]
    · by_cases hr : r = ""
      · simp [batchSpamDetection, hk, hr]
      · simp [batchSpamDetection, hk, hr, hp]
  · by_cases hk : key = "" <;> simp [batchSpamDetection, hk]
  · by_cases hk : key = "" <;> simp [batchSpamDetection, hk]
  · intro resultJson hp hy
    by_cases hk : key = ""
    · simp [batchSpamDetection, hk]
    · by_cases hr : r = ""
      · simp [batchSpamDetection, hk, hr]
      · simp [batchSpamDetection, hk, hr, hp, hy]
  · intro ids hp hk hr
    simp [batchSpamDetection, hk, hr, hp, getYField, iterStrList,
      dictLookup_cons]

/-- A fenced classifier answer naming `u1`, and a parse function defined at
exactly its cleaned form. -/
def fencedAnswer : String := "```json\n\x7b\"y\": [\"u1\"]\x7d\n```"

def sampleParseJson : String → Option JVal := fun s =>
  if s = "\x7b\"y\": [\"u1\"]\x7d" then
    some (.jobj [("y", .jarr [.jstr "u1"])])
  else none

/-- Witness for C6: the fence is stripped and the fenced `{"y": ["u1"]}`
answer yields `["u1"]`. -/
theorem c6_result_parsing_witness :
    cleanModelResult fencedAnswer
      = pyStrip (pyDropRight (pyDrop (pyStrip fencedAnswer) 7) 3) ∧
    batchSpamDetection "key" (some fencedAnswer) sampleParseJson
      = [JVal.jstr "u1"].map pyStr :=
  ⟨(c6_result_parsing "key" fencedAnswer sampleParseJson).1 (by decide)
      (by decide),
   (c6_result_parsing "key" fencedAnswer sampleParseJson).2.2.2.2.2
      [.jstr "u1"] rfl (by decide) (by decide)⟩

/-! ## Claims C8/C9 — content flattening
(`_extract_content_from_messages`, `_process_forward_message_recursive`) -/

/-- Python truthiness of an optional string (`None` and `""` are falsy). -/
def truthyOpt (o : Option String) : Option String :=
  match o with
  | some s => if s = "" then none else some s
  | none => none

/-- `getattr(comp,'url',None) or getattr(comp,'file',None)` followed by the
`if url:` truthiness check: the value appended, when any. -/
def imageUrlValue (url file : Option String) : Option String :=
  match truthyOpt url with
  | some s => some s
  | none => truthyOpt file

mutual

/-- `extract_content_at_depth` on one component: extract stripped non-empty
text and truthy image urls exactly at the target depth; below it, descend
only into node content lists. -/
def extractCompAtDepth (currentDepth targetDepth : Nat) :
    MComp → List String × List String
  | .Plain text =>
    if currentDepth = targetDepth then
      let t := pyStrip text
      if t ≠ "" then ([t], []) else ([], [])
    else ([], [])
  | .Image url file =>
    if currentDepth = targetDepth then
      match imageUrlValue url file with
      | some s => ([], [s])
      | none => ([], [])
    else ([], [])
  | .Node _ _ content _ =>
    if currentDepth = targetDepth then ([], [])
    else extractListAtDepth (currentDepth + 1) targetDepth content
  | .At _ => ([], [])
  | .Raw _ => ([], [])

/-- `extract_content_at_depth` on a component list. -/
def extractListAtDepth (currentDepth targetDepth : Nat) :
    List MComp → List String × List String
  | [] => ([], [])
  | c :: rest =>
    let p := extractCompAtDepth currentDepth targetDepth c
    let q := extractListAtDepth currentDepth targetDepth rest
    (p.1 ++ q.1, p.2 ++ q.2)

end

/-- The text-accumulation loop (`for text in depth_texts`) of
`_extract_content_from_messages`: items are appended whole while they fit in
`max_text_length`; an item that would cross the limit is appended in full —
without its length being counted — and the loop breaks. -/
def accTexts (maxTextLength : Int) :
    Nat → List String → List String → Nat × List String
  | cur, parts, [] => (cur, parts)
  | cur, parts, t :: rest =>
    if (cur : Int) + t.length ≤ maxTextLength then
      accTexts maxTextLength (cur + t.length) (parts ++ [t]) rest
    else (cur, parts ++ [t])

/-- The image-accumulation loop (`for img_url in depth_images`). -/
def accImages (maxImages : Nat) : List String → List String → List String
  | imgs, [] => imgs
  | imgs, u :: rest =>
    if imgs.length < maxImages then accImages maxImages (imgs ++ [u]) rest
    else imgs

/-- The depth loop `for depth in range(max_depth)`, including its combined
both-limits early break; an empty depth just continues. -/
def extractDepthLoop (maxTextLength : Int) (maxImages : Nat)
    (comps : List MComp) :
    List Nat → Nat → List String → List String →
      Nat × List String × List String
  | [], cur, parts, imgs => (cur, parts, imgs)
  | depth :: rest, cur, parts, imgs =>
    let d := extractListAtDepth 0 depth comps
    let tp := accTexts maxTextLength cur parts d.1
    let imgs' := accImages maxImages imgs d.2
    if maxTextLength ≤ (tp.1 : Int) ∧ maxImages ≤ imgs'.length then
      (tp.1, tp.2, imgs')
    else extractDepthLoop maxTextLength maxImages comps rest tp.1 tp.2 imgs'

/-- `_extract_content_from_messages` (the code bumps the configured max
depth by one before `range`). -/
def extractContentFromMessages (maxTextLength : Int) (maxImages : Nat)
    (maxDepthConfig : Nat) (originalMessages : List MComp) :
    String × List String :=
  let maxDepth := maxDepthConfig + 1
  let res := extractDepthLoop maxTextLength maxImages originalMessages
    (List.range maxDepth) 0 [] []
  (String.intercalate "\n" res.2.1, res.2.2)

/-- C8 counterexample: with text limit 5, the item "bbbb" crosses the limit
at depth 0 (3 + 4 > 5), yet the depth-1 item "cc" is still accumulated
afterwards — text accumulation does not stop globally once the limit is
crossed. -/
theorem c8_counterexample :
    extractContentFromMessages 5 10 3
        [MComp.Plain "aaa", MComp.Plain "bbbb",
         MComp.Node "1" "n" [MComp.Plain "cc"] 0]
      = ("aaa\nbbbb\ncc", []) ∧
    (5 : Int) < 3 + ("bbbb".length : Int) :=
  ⟨by decide, by decide⟩

/-- C8 (amended): within a single depth layer the text loop appends only
whole items — the accumulated list extends `parts` by a prefix of the
layer's extracted items, never a truncated item — and an item that would
cross the limit is appended in full, after which the layer's loop stops
with the running length unchanged.  (Accumulation can resume at deeper
layers, as `c8_counterexample` shows, so the stop is per layer only.) -/
theorem c8_layer_text_accumulation (maxTextLength : Int) (cur : Nat)
    (parts texts : List String) :
    (∃ k, (accTexts maxTextLength cur parts texts).2
        = parts ++ texts.take k) ∧
    (∀ t rest, maxTextLength < (cur : Int) + t.length →
      accTexts maxTextLength cur parts (t :: rest) = (cur, parts ++ [t])) := by
  constructor
  · induction texts generalizing cur parts with
    | nil => exact ⟨0, by simp [accTexts]⟩
    | cons t rest ih =>
      by_cases hf : (cur : Int) + t.length ≤ maxTextLength
      · obtain ⟨k, hk⟩ := ih (cur + t.length) (parts ++ [t])
        refine ⟨k + 1, ?_⟩
        rw [accTexts, if_pos hf, hk]
        simp
      · refine ⟨1, ?_⟩
        rw [accTexts, if_neg hf]
        simp
  · intro t rest ht
    rw [accTexts, if_neg (by omega)]

/-- Witness for C8's amended statement: layer ["bbbb","x"] with running
length 3 and limit 5 appends the crossing item "bbbb" whole and stops. -/
theorem c8_layer_text_accumulation_witness :
    (∃ k, (accTexts 5 3 ["aaa"] ["bbbb", "x"]).2
        = ["aaa"] ++ (["bbbb", "x"] : List String).take k) ∧
    accTexts 5 3 ["aaa"] ["bbbb", "x"] = (3, ["aaa", "bbbb"]) :=
  ⟨(c8_layer_text_accumulation 5 3 ["aaa"] ["bbbb", "x"]).1,
   (c8_layer_text_accumulation 5 3 ["aaa"] ["bbbb", "x"]).2 "bbbb" ["x"]
     (by decide)⟩

/-! ### Nested forward structures (`get_forward_msg` node trees)

The platform's nested-forward payload: a list of node dicts, each with a
`time` (defaulted to the ingestion timestamp when absent), a sender
(`user_id`, `nickname`) and a `message` list of typed segments; a segment of
type `forward` carries a nested node list in its data.  Mutual list types
are used so the recursion is structural. -/

mutual

inductive FSeg : Type where
  | text (s : String)
  | image (url : Option String) (file : Option String)
  | atSeg (qq : String)
  | forwardSeg (content : FNodeList)
  | otherSeg (segType : String)

inductive FNode : Type where
  | mk (time : Option Int) (userId : String) (nickname : String)
      (message : FSegList)

inductive FNodeList : Type where
  | nil
  | cons (head : FNode) (tail : FNodeList)

inductive FSegList : Type where
  | nil
  | cons (head : FSeg) (tail : FSegList)

end

def tooDeepPlaceholder : String := "[嵌套消息过深，无法显示]"

def emptyNestedPlaceholder : String := "[嵌套消息为空，无法显示]"

/-- The `for seg in content_list` loop of
`_process_forward_message_recursive`: text/plain, image and at segments map
to their components; a `forward` segment with non-empty nested content
recurses one level deeper — the call one level down is passed as `deeper` —
splicing the result, while an empty one keeps the raw segment; any other
segment type is kept raw. -/
def procSegsWith (deeper : Int → FNodeList → List MComp) :
    Int → FSegList → List MComp
  | _, .nil => []
  | timesend, .cons seg tail =>
    (match seg with
     | .text s => [MComp.Plain s]
     | .image url file => [MComp.Image url file]
     | .atSeg qq => [MComp.At qq]
     | .forwardSeg content =>
       match content with
       | .nil => [MComp.Raw "forward"]
       | .cons h t => deeper timesend (.cons h t)
     | .otherSeg segType => [MComp.Raw segType])
      ++ procSegsWith deeper timesend tail

/-- One node dict: `timesend = node.get('time', timestamp)`, the sender
fields, and the processed segment components. -/
def procNodeWith (deeper : Int → FNodeList → List MComp) (timestamp : Int) :
    FNode → MComp
  | .mk time userId nickname message =>
    let timesend := time.getD timestamp
    MComp.Node userId nickname (procSegsWith deeper timesend message)
      timesend

/-- The `for node in nested_data` loop: one `Comp.Node` per node dict. -/
def procNodesWith (deeper : Int → FNodeList → List MComp)
    (timestamp : Int) : FNodeList → List MComp
  | .nil => []
  | .cons node tail =>
    procNodeWith deeper timestamp node
      :: procNodesWith deeper timestamp tail

/-- `_process_forward_message_recursive` with the recursion indexed by the
remaining depth budget `max_depth - depth` (which is `0` in `Nat` exactly
when `depth >= max_depth`): budget exhausted yields the too-deep
placeholder, an empty node list yields the empty placeholder, otherwise
every node is processed with nested forwards handled one budget level
lower. -/
def processForwardRemaining : Nat → Int → FNodeList → List MComp
  | 0, _, _ => [MComp.Plain tooDeepPlaceholder]
  | _ + 1, _, .nil => [MComp.Plain emptyNestedPlaceholder]
  | n + 1, timestamp, .cons node tail =>
    procNodesWith (fun ts nodes => processForwardRemaining n ts nodes)
      timestamp (.cons node tail)

/-- `_process_forward_message_recursive(nested_data, timestamp, depth,
max_depth)`. -/
def processForwardMessageRecursive (nestedData : FNodeList)
    (timestamp : Int) (depth maxDepth : Nat) : List MComp :=
  processForwardRemaining (maxDepth - depth) timestamp nestedData

/-- A nested forward tree of depth 5: layer `k` holds text `tk` and the
next layer inside a `forward` segment; layer 2 additionally holds an
image. -/
def deepTree : FNodeList :=
  .cons (.mk none "u0" "n0"
    (.cons (.text "t0") (.cons (.forwardSeg (
      .cons (.mk none "u1" "n1"
        (.cons (.text "t1") (.cons (.forwardSeg (
          .cons (.mk none "u2" "n2"
            (.cons (.text "t2") (.cons (.image (some "img2.png") none)
              (.cons (.forwardSeg (
                .cons (.mk none "u3" "n3"
                  (.cons (.text "t3") (.cons (.forwardSeg (
                    .cons (.mk none "u4" "n4"
                      (.cons (.text "t4") .nil)) .nil)) .nil)))
                  .nil)) .nil)))) .nil)) .nil))) .nil)) .nil))) .nil

/-- C9: flattening content at depth ≥ `max_depth` produces the literal
too-deep placeholder instead of an error; and flattening the depth-5 tree
with max depth 3 yields the real text and media of layers 0–2 plus the
placeholder for the deepest processed layer, with layers 3–4 absent. -/
theorem c9_depth_placeholder (nestedData : FNodeList) (timestamp : Int)
    (depth maxDepth : Nat) (h : maxDepth ≤ depth) :
    processForwardMessageRecursive nestedData timestamp depth maxDepth
      = [MComp.Plain tooDeepPlaceholder] ∧
    extractContentFromMessages 5000 10 3
        (processForwardMessageRecursive deepTree 100 0 3)
      = ("t0\nt1\nt2\n[嵌套消息过深，无法显示]", ["img2.png"]) := by
  constructor
  · unfold processForwardMessageRecursive
    rw [Nat.sub_eq_zero_of_le h]
    rfl
  · decide

/-- Witness for C9 at depth 3 with max depth 3. -/
theorem c9_depth_placeholder_witness :
    processForwardMessageRecursive FNodeList.nil 0 3 3
      = [MComp.Plain tooDeepPlaceholder] ∧
    extractContentFromMessages 5000 10 3
        (processForwardMessageRecursive deepTree 100 0 3)
      = ("t0\nt1\nt2\n[嵌套消息过深，无法显示]", ["img2.png"]) :=
  c9_depth_placeholder FNodeList.nil 0 3 3 (by decide)

/-! ## Claim C10 — group filter (`_is_group_blacklisted`,
`on_group_message`) -/

/-- An id-list configuration value (`BLACKLIST_GROUPS`, `WHITELIST_USERS`):
a list, a comma-separated string, or missing (the code defaults to `[]`). -/
inductive IdListConfig : Type where
  | list (ids : List String)
  | str (s : String)
  | missing

/-- Python `s.split(",")`. -/
def pySplitComma (s : String) : List String :=
  s.data.foldr
    (fun c acc =>
      if c = ',' then "" :: acc
      else
        match acc with
        | h :: t => String.mk (c :: h.data) :: t
        | [] => [String.mk [c]])
    [""]

/-- `[x.strip() for x in s.split(",") if x.strip()]`. -/
def normalizeIdList (cfg : IdListConfig) : List String :=
  match cfg with
  | .list ids => ids
  | .str s => ((pySplitComma s).map pyStrip).filter (fun x => x ≠ "")
  | .missing => []

/-- `_is_group_blacklisted`: a falsy (`None` or empty) group id is rejected
outright; otherwise an empty configured list means "detect all groups"
(`True`), else plain membership. -/
def isGroupBlacklisted (blacklistGroups : IdListConfig)
    (groupId : Option String) : Bool :=
  match truthyOpt groupId with
  | none => false
  | some gid =>
    let blacklist := normalizeIdList blacklistGroups
    if blacklist.isEmpty then true
    else blacklist.contains gid

/-- `_is_user_whitelisted`. -/
def isUserWhitelisted (whitelistUsers : IdListConfig) (userId : String) :
    Bool :=
  (normalizeIdList whitelistUsers).contains userId

/-- The admission gate at the head of `on_group_message`: the event is
processed further only when the group filter accepts and the sender is not
whitelisted. -/
def onGroupMessageProceeds (blacklistGroups whitelistUsers : IdListConfig)
    (groupId : Option String) (userId : String) : Bool :=
  if !(isGroupBlacklisted blacklistGroups groupId) then false
  else if isUserWhitelisted whitelistUsers userId then false
  else true

/-- C10: with `BLACKLIST_GROUPS` missing, an empty list, or an empty
string, the filter accepts every non-empty group id; and a `None` or empty
group id is rejected under every configuration, so such events never pass
the `on_group_message` gate. -/
theorem c10_group_filter (whitelistUsers : IdListConfig) (userId : String) :
    (∀ gid : String, gid ≠ "" →
      isGroupBlacklisted .missing (some gid) = true ∧
      isGroupBlacklisted (.list []) (some gid) = true ∧
      isGroupBlacklisted (.str "") (some gid) = true) ∧
    (∀ cfg : IdListConfig,
      isGroupBlacklisted cfg none = false ∧
      isGroupBlacklisted cfg (some "") = false ∧
      onGroupMessageProceeds cfg whitelistUsers none userId = false ∧
      onGroupMessageProceeds cfg whitelistUsers (some "") userId
        = false) := by
  constructor
  · intro gid hgid
    refine ⟨?_, ?_, ?_⟩ <;>
      simp [isGroupBlacklisted, truthyOpt, hgid, normalizeIdList,
        pySplitComma, pyStrip]
  · intro cfg
    refine ⟨?_, ?_, ?_, ?_⟩ <;>
      simp [isGroupBlacklisted, truthyOpt, onGroupMessageProceeds]

/-- Witness for C10 at the concrete group id `"g1"`. -/
theorem c10_group_filter_witness :
    (isGroupBlacklisted .missing (some "g1") = true ∧
     isGroupBlacklisted (.list []) (some "g1") = true ∧
     isGroupBlacklisted (.str "") (some "g1") = true) ∧
    (isGroupBlacklisted .missing none = false ∧
     isGroupBlacklisted .missing (some "") = false ∧
     onGroupMessageProceeds .missing .missing none "u1" = false ∧
     onGroupMessageProceeds .missing .missing (some "") "u1" = false) :=
  ⟨(c10_group_filter .missing "u1").1 "g1" (by decide),
   (c10_group_filter .missing "u1").2 .missing⟩

end SpamDetector
